import Mathlib

/-!
Shallow embedding of the youtube-video batch pipeline (TypeScript sources):
`src/verifyYoutubeUpload.ts`, `src/batchUploadToYoutube.ts`,
`src/split_video_precise.ts`, `src/concat-mts.ts`.

Conventions of the embedding:
* a thrown JS `Error` is `Except.error msg` with the message string built
  exactly as in the source;
* `await new Promise(resolve => setTimeout(resolve, d))` is recorded in a
  `sleeps : List Nat` trace (the list of delays, in order);
* network calls (`service.videos.list`, `service.videos.insert`,
  `Bun.file(..).text()`, `ffprobeDuration`) are oracles passed as functions;
* nullable JSON fields are `Option`s; a JS `for` loop with loop variable
  `attempt` is structural recursion on the number of remaining iterations
  (the loop-exit fall-through is the `none` result, so that the trailing
  `throw` after each loop is the `none => fallback` branch of the wrapper).
-/

namespace YTV

/-- Decidable equality of `Except` results (component-wise). -/
instance {ε α : Type} [DecidableEq ε] [DecidableEq α] : DecidableEq (Except ε α) :=
  fun a b =>
    match a, b with
    | Except.error e, Except.error f => decidable_of_iff (e = f) (by simp)
    | Except.error _, Except.ok _ => Decidable.isFalse (by simp)
    | Except.ok _, Except.error _ => Decidable.isFalse (by simp)
    | Except.ok x, Except.ok y => decidable_of_iff (x = y) (by simp)

/-! ### Data model of `verifyYoutubeUpload.ts` -/

/-- Model of `youtube_v3.Schema$VideoSnippet`, restricted to the fields read here. -/
structure Snippet where
  title : String
  description : String
  categoryId : String
deriving DecidableEq, Repr

/-- Model of `youtube_v3.Schema$VideoStatus`, restricted to the fields read here. -/
structure VStatus where
  privacyStatus : String
deriving DecidableEq, Repr

/-- Model of `youtube_v3.Schema$Video` with its nullable `snippet`/`status`. -/
structure Video where
  snippet : Option Snippet
  status : Option VStatus
deriving DecidableEq, Repr

/-- Model of `response.data` of `service.videos.list`: `items` is nullable, and each
slot of the array may itself be null. -/
structure ListResponse where
  items : Option (List (Option Video))
deriving DecidableEq, Repr

/-- The record returned by `fetchVideoData` on success. -/
structure FetchOk where
  video : Video
  snippet : Snippet
  status : VStatus
deriving DecidableEq, Repr

/-- Expected metadata (`ExpectedVideoMetadata`). -/
structure ExpectedVideoMetadata where
  title : String
  description : String
  categoryId : String
  privacyStatus : String
deriving DecidableEq, Repr

/-- Outcome of `fetchVideoData`: result, the sleep trace, and how many
attempts of the loop ran. -/
structure FetchOut where
  result : Except String FetchOk
  sleeps : List Nat
  attemptsUsed : Nat
deriving DecidableEq, Repr

/-- The body of the `try` block of `fetchVideoData` at one attempt:
the `service.videos.list` outcome (`resp`, an error when the call throws)
followed by the empty-items / null-slot / missing-subobject checks,
in source order. -/
def fetchAttemptBody (videoId : String) (resp : Except String ListResponse) :
    Except String FetchOk :=
  match resp with
  | Except.error e => Except.error e
  | Except.ok response =>
    match response.items with
    | none => Except.error ("Video " ++ videoId ++ " not found on channel")
    | some items =>
      match items with
      | [] => Except.error ("Video " ++ videoId ++ " not found on channel")
      | video? :: _ =>
        match video? with
        | none => Except.error ("Video " ++ videoId ++ " not found in response")
        | some video =>
          match video.snippet, video.status with
          | some sn, some st => Except.ok ⟨video, sn, st⟩
          | some _, none =>
              Except.error ("Video " ++ videoId ++ " missing snippet or status")
          | none, _ =>
              Except.error ("Video " ++ videoId ++ " missing snippet or status")

/-- The `for (let attempt = 1; attempt <= maxAttempts; attempt++)` loop of
`fetchVideoData`. `k` counts the remaining iterations (current one included),
so the source's `attempt === maxAttempts` test is `k = 1`, here the `k = 0`
test after peeling one iteration. `none` means the loop fell through its
exit (so the caller reaches the trailing `throw`). -/
def fetchGo (oracle : Nat → Except String ListResponse) (videoId : String)
    (delayMs : Nat) : Nat → Nat → Option FetchOut
  | 0, _ => none
  | k + 1, attempt =>
    match fetchAttemptBody videoId (oracle attempt) with
    | Except.ok x => some ⟨Except.ok x, [], attempt⟩
    | Except.error e =>
      if k = 0 then
        some ⟨Except.error e, [], attempt⟩
      else
        match fetchGo oracle videoId delayMs k (attempt + 1) with
        | none => none
        | some out => some ⟨out.result, delayMs :: out.sleeps, out.attemptsUsed⟩

/-- The function `fetchVideoData`: run the loop from `attempt = 1`; the `none` case is the
trailing `throw new Error('Failed to fetch video data for ...')`. -/
def fetchVideoData (oracle : Nat → Except String ListResponse) (videoId : String)
    (maxAttempts delayMs : Nat) : FetchOut :=
  match fetchGo oracle videoId delayMs maxAttempts 1 with
  | some out => out
  | none =>
      ⟨Except.error ("Failed to fetch video data for " ++ videoId), [], maxAttempts⟩

/-- The validation block of `verifyVideo` (after a successful fetch), with the
four field checks in source order and the source's error messages. -/
def validateVideo (expected : ExpectedVideoMetadata) (snippet : Snippet)
    (status : VStatus) : Except String Unit :=
  if snippet.title ≠ expected.title then
    Except.error ("Title mismatch: expected \"" ++ expected.title ++ "\", got \"" ++
      snippet.title ++ "\"")
  else if snippet.description ≠ expected.description then
    Except.error ("Description mismatch: expected length " ++
      toString expected.description.length ++ ", got " ++
      toString snippet.description.length)
  else if snippet.categoryId ≠ expected.categoryId then
    Except.error ("Category mismatch: expected \"" ++ expected.categoryId ++
      "\", got \"" ++ snippet.categoryId ++ "\"")
  else if status.privacyStatus ≠ expected.privacyStatus then
    Except.error ("Privacy mismatch: expected \"" ++ expected.privacyStatus ++
      "\", got \"" ++ status.privacyStatus ++ "\"")
  else
    Except.ok ()

/-- Outcome of `verifyVideo`. -/
structure VerifyOut where
  result : Except String Unit
  sleeps : List Nat
  fetchAttempts : Nat
deriving DecidableEq, Repr

/-- The function `verifyVideo`: fetch (with retries), then validate (no retries). -/
def verifyVideo (oracle : Nat → Except String ListResponse) (videoId : String)
    (expected : ExpectedVideoMetadata) (maxAttempts delayMs : Nat) : VerifyOut :=
  let f := fetchVideoData oracle videoId maxAttempts delayMs
  match f.result with
  | Except.error e => ⟨Except.error e, f.sleeps, f.attemptsUsed⟩
  | Except.ok ok => ⟨validateVideo expected ok.snippet ok.status, f.sleeps, f.attemptsUsed⟩

/-- Default `maxAttempts` of `verifyVideo`. -/
def verifyDefaultMaxAttempts : Nat := 5

/-- Default `delayMs` of `verifyVideo`. -/
def verifyDefaultDelayMs : Nat := 3000

/-- The function `verifyVideo` with its TS default parameters. -/
def verifyVideoDefaults (oracle : Nat → Except String ListResponse)
    (videoId : String) (expected : ExpectedVideoMetadata) : VerifyOut :=
  verifyVideo oracle videoId expected verifyDefaultMaxAttempts verifyDefaultDelayMs

/-! ### `batchUploadToYoutube.ts`: data model -/

/-- The slice of a `service.videos.insert` response the retry loop reads:
HTTP `status`, `statusText`, and `data.id`. -/
structure InsertResp where
  status : Nat
  statusText : String
  id : String
deriving DecidableEq, Repr

/-- Model of `BatchUploadOptions`, restricted to the fields the claims touch.
`none` models an absent (undefined) option. -/
structure BatchUploadOptions where
  maxRetries : Option Nat
  retryDelay : Option Nat
  categoryId : Option String
  privacyStatus : Option String
deriving DecidableEq, Repr

/-- The assignment `this.maxRetries = options.maxRetries ?? 3` (nullish coalescing). -/
def resolvedMaxRetries (o : BatchUploadOptions) : Nat :=
  o.maxRetries.getD 3

/-- The assignment `this.retryDelay = options.retryDelay ?? 1000` (nullish coalescing). -/
def resolvedRetryDelay (o : BatchUploadOptions) : Nat :=
  o.retryDelay.getD 1000

/-- JS `x || d` on an optional string: absent or empty (falsy) falls back. -/
def orFalsy (o : Option String) (d : String) : String :=
  match o with
  | none => d
  | some s => if s = "" then d else s

/-- The body of the `try` block of `uploadVideoWithRetry` at one attempt:
the insert call outcome, then the `response.status >= 400` check that turns
an error response into a thrown error. -/
def insertOutcome (oracle : Nat → Except String InsertResp) (attempt : Nat) :
    Except String InsertResp :=
  match oracle attempt with
  | Except.error e => Except.error e
  | Except.ok r =>
    if r.status ≥ 400 then
      Except.error ("YouTube API error: " ++ toString r.status ++ " " ++ r.statusText)
    else
      Except.ok r

/-- Outcome of `uploadVideoWithRetry`. -/
structure UploadOut where
  result : Except String InsertResp
  sleeps : List Nat
  attemptsUsed : Nat
deriving DecidableEq, Repr

/-- The `for (let attempt = 0; attempt <= this.maxRetries; attempt++)` loop.
`k + 1` is the number of remaining iterations (current one included), so the
source's `attempt < maxRetries` test is `k > 0`, i.e. the `k = 0` test below
is `attempt === maxRetries`. On a caught error with retries left it sleeps
`retryDelay * 2 ** attempt`. `none` is the loop-exit fall-through. -/
def uploadGo (oracle : Nat → Except String InsertResp) (retryDelay : Nat) :
    Nat → Nat → Option UploadOut
  | 0, _ => none
  | k + 1, attempt =>
    match insertOutcome oracle attempt with
    | Except.ok r => some ⟨Except.ok r, [], attempt + 1⟩
    | Except.error e =>
      if k = 0 then
        some ⟨Except.error e, [], attempt + 1⟩
      else
        match uploadGo oracle retryDelay k (attempt + 1) with
        | none => none
        | some out =>
            some ⟨out.result, retryDelay * 2 ^ attempt :: out.sleeps, out.attemptsUsed⟩

/-- The function `uploadVideoWithRetry`: the loop runs `maxRetries + 1` iterations starting
at `attempt = 0`; the `none` case is the trailing
`throw new Error('Failed to upload video')`. -/
def uploadVideoWithRetry (oracle : Nat → Except String InsertResp)
    (maxRetries retryDelay : Nat) : UploadOut :=
  match uploadGo oracle retryDelay (maxRetries + 1) 0 with
  | some out => out
  | none => ⟨Except.error "Failed to upload video", [], 0⟩

/-! ### `findVideoFiles` -/

/-- Digits of a decimal numeral to its value (the effect of
`parseInt(digits, 10)` on an all-digit capture). -/
def digitsToNat (ds : List Char) : Nat :=
  ds.foldl (fun a c => a * 10 + (c.toNat - 48)) 0

/-- Try the regex `part(\d+)` anchored at the head of the character list:
the literal `part` followed by at least one digit; yields the parsed
capture. -/
def partMatchAt (cs : List Char) : Option Nat :=
  if "part".toList.isPrefixOf cs then
    let ds := (cs.drop 4).takeWhile Char.isDigit
    if ds.isEmpty then none else some (digitsToNat ds)
  else none

/-- Unanchored search for `part(\d+)` (JS `String.prototype.match`):
try each position left to right. -/
def searchPartNum : List Char → Option Nat
  | [] => none
  | c :: cs =>
    match partMatchAt (c :: cs) with
    | some n => some n
    | none => searchPartNum cs

/-- The call `match(/part(\d+)/)` with the `m?.[1] ? parseInt(m[1], 10) : 0` fallback:
no match (or, vacuously, an empty capture) gives `0`. -/
def partNum (f : String) : Nat :=
  (searchPartNum f.toList).getD 0

/-- The filter of `findVideoFiles`:
`f.startsWith('part') && f.endsWith('.MTS')` (expressed on the character
list so that it evaluates in the kernel). -/
def matchesVideoFilter (f : String) : Bool :=
  "part".toList.isPrefixOf f.toList && ".MTS".toList.isSuffixOf f.toList

/-- The comparator `(a, b) => numA - numB` as an ordering relation. -/
def partLe (a b : String) : Prop :=
  partNum a ≤ partNum b

instance : DecidableRel partLe :=
  fun a b => inferInstanceAs (Decidable (partNum a ≤ partNum b))

instance : IsTotal String partLe :=
  ⟨fun a b => Nat.le_total (partNum a) (partNum b)⟩

instance : IsTrans String partLe :=
  ⟨fun _ _ _ => Nat.le_trans⟩

/-- The function `findVideoFiles` on a directory listing: filter by prefix/suffix, then
stable sort by extracted part number (`Array.prototype.sort` is stable). -/
def findVideoFiles (files : List String) : List String :=
  List.insertionSort partLe (files.filter matchesVideoFilter)

/-- The spec's words for the filter (used only to compare the spec against
the code): the full-name regex `part\d+\.MTS` — the literal `part`, then at
least one digit, then exactly `.MTS`. -/
def specPartPattern (f : String) : Bool :=
  "part".toList.isPrefixOf f.toList &&
    (let rest := f.toList.drop 4
     !(rest.takeWhile Char.isDigit).isEmpty &&
       decide (rest.dropWhile Char.isDigit = ".MTS".toList))

/-! ### `uploadBatch` -/

/-- JS `String.prototype.replace` with a string pattern removes only the
first occurrence; this is that removal on character lists. -/
def removeFirst (pat : List Char) : List Char → List Char
  | [] => []
  | c :: cs =>
    if pat.isPrefixOf (c :: cs) then (c :: cs).drop pat.length
    else c :: removeFirst pat cs

/-- The expression `file.replace('.MTS', '')`. -/
def stripMTS (file : String) : String :=
  String.mk (removeFirst ".MTS".toList file.toList)

/-- The argument tuple of `this.uploadVideo(...)` built per file. -/
structure UploadJob where
  videoPath : String
  title : String
  description : String
  categoryId : String
  privacyStatus : String
deriving DecidableEq, Repr

/-- The environment of one `uploadBatch` run: the directory listing, the
description-file reads (`none` models a failing `Bun.file(...).text()`), and
the outcome of `uploadVideo` per argument tuple. -/
structure BatchEnv where
  files : List String
  readDesc : String → Option String
  upload : UploadJob → Except String InsertResp

/-- Directory configuration plus the options record. -/
structure BatchConfig where
  videosDir : String
  descriptionsDir : String
  options : BatchUploadOptions

/-- The path `path.join(this.descriptionsDir, file.replace('.MTS','') + '-description_en.txt')`
(`path.join` on simple relative names is separator joining). -/
def descPath (cfg : BatchConfig) (file : String) : String :=
  cfg.descriptionsDir ++ "/" ++ (stripMTS file ++ "-description_en.txt")

/-- The loop body of `uploadBatch` up to the `uploadVideo` call: part number,
video path, description (empty on read failure), title, and the
`options.categoryId || CATEGORY_ID` / `options.privacyStatus || PRIVACY_STATUS`
fallbacks. -/
def mkJob (cfg : BatchConfig) (env : BatchEnv) (file : String) : UploadJob :=
  ⟨cfg.videosDir ++ "/" ++ file,
   "Video Part " ++ toString (partNum file),
   (env.readDesc (descPath cfg file)).getD "",
   orFalsy cfg.options.categoryId "22",
   orFalsy cfg.options.privacyStatus "private"⟩

/-- Whether the description read failed for `file` (the `catch` that logs
`'No English description found for %s'`). -/
def descMissing (cfg : BatchConfig) (env : BatchEnv) (file : String) : Bool :=
  (env.readDesc (descPath cfg file)).isNone

/-- Outcome of `uploadBatch`: the collected responses (or the propagated
error), the jobs actually passed to `uploadVideo` in order, and the files for
which the missing-description warning was logged. -/
structure BatchOut where
  result : Except String (List InsertResp)
  attempted : List UploadJob
  warnedFiles : List String
deriving DecidableEq

/-- The `for (const file of videoFiles)` loop: sequential, unguarded — an
upload error aborts the rest of the iteration. -/
def batchGo (cfg : BatchConfig) (env : BatchEnv) : List String → BatchOut
  | [] => ⟨Except.ok [], [], []⟩
  | f :: fs =>
    let job := mkJob cfg env f
    let warns := if descMissing cfg env f then [f] else []
    match env.upload job with
    | Except.error e => ⟨Except.error e, [job], warns⟩
    | Except.ok r =>
      let rest := batchGo cfg env fs
      ⟨(match rest.result with
        | Except.ok rs => Except.ok (r :: rs)
        | Except.error e => Except.error e),
       job :: rest.attempted, warns ++ rest.warnedFiles⟩

/-- The function `uploadBatch`: find the video files (empty listing returns `[]` early),
then run the sequential loop. -/
def uploadBatch (cfg : BatchConfig) (env : BatchEnv) : BatchOut :=
  let vids := findVideoFiles env.files
  if vids.isEmpty then ⟨Except.ok [], [], []⟩ else batchGo cfg env vids

/-! ### `splitVideoPrecise` -/

/-- One ffmpeg invocation of the splitter: the `-ss` offset and the `-t`
argument (`none` when `-t` is omitted, i.e. for the last part). The source
formats both with `toFixed(3)`; the embedding keeps the exact values. -/
structure SplitCmd where
  start : ℚ
  tArg : Option ℚ
deriving DecidableEq, Repr

/-- The `for (let i = 1; i <= parts; i++)` loop of `splitVideoPrecise`.
`r` is the number of parts still to produce (`parts - (i - 1)`, the source's
`remParts`), `i` the 1-based part index used to query the measured actual
duration `actual i` of the part just produced (`ffprobeDuration(outFile)`).
Each iteration plans `remaining / remParts` and then advances
`start += actual i`, `remaining -= actual i`. -/
def splitGo (actual : Nat → ℚ) : Nat → Nat → ℚ → ℚ → List SplitCmd
  | 0, _, _, _ => []
  | r + 1, i, start, remaining =>
    let partDuration := remaining / ((r : ℚ) + 1)
    let cmd : SplitCmd := ⟨start, if r = 0 then none else some partDuration⟩
    cmd :: splitGo actual r (i + 1) (start + actual i) (remaining - actual i)

/-- The function `splitVideoPrecise`: start offset `0`, `remaining` the probed source
duration, parts `1..parts`. Returns the list of ffmpeg invocations. -/
def splitVideoPrecise (duration : ℚ) (parts : Nat) (actual : Nat → ℚ) :
    List SplitCmd :=
  splitGo actual parts 1 0 duration

/-- Sum of the measured durations of parts `i, i+1, ..., i+k-1`. -/
def sumActs (actual : Nat → ℚ) (i k : Nat) : ℚ :=
  (((List.range k).map fun j => actual (i + j))).sum

/-! ### `concatMts` -/

/-- Lexicographic comparison of strings by code units (default JS
`Array.prototype.sort` comparator on strings). -/
def lexLebChars : List Char → List Char → Bool
  | [], _ => true
  | _ :: _, [] => false
  | c :: cs, d :: ds => if c = d then lexLebChars cs ds else decide (c.toNat < d.toNat)

/-- The relation form of the default sort comparator. -/
def lexLe (a b : String) : Prop :=
  lexLebChars a.toList b.toList = true

instance : DecidableRel lexLe :=
  fun a b => inferInstanceAs (Decidable (lexLebChars a.toList b.toList = true))

/-- The listing `(await readdir(sourceDir)).filter(f => f.endsWith('.MTS')).sort()`. -/
def concatInputs (files : List String) : List String :=
  List.insertionSort lexLe
    (files.filter fun f => ".MTS".toList.isSuffixOf f.toList)

/-- Outcome of `concatMts`: result plus whether the duration-difference
warning was logged. -/
structure ConcatOut where
  result : Except String Unit
  durationWarning : Bool
deriving DecidableEq, Repr

/-- The function `concatMts` after the file list is written: the ffmpeg exit-code check,
then the duration check: `diff = sum - outDur`; `diff > 0.01` logs the
mismatch warning, anything else logs `'Durations match.'`; either way the
function returns normally. `dur f` is `ffprobeDuration` of input file `f`,
`outDur` that of the output file. -/
def concatMts (files : List String) (dur : String → ℚ) (outDur : ℚ)
    (ffmpegExit : Int) : ConcatOut :=
  if ffmpegExit ≠ 0 then
    ⟨Except.error ("ffmpeg failed with code " ++ toString ffmpegExit), false⟩
  else
    let sum := ((concatInputs files).map dur).sum
    let diff := sum - outDur
    ⟨Except.ok (), decide (diff > 1 / 100)⟩


/-! ### Concrete instances used in closed statements -/

/-- A list response whose single item slot is null (`items: [null]`). -/
def nullSlotResp : ListResponse := ⟨some [none]⟩

/-- A list response with an item that lacks both `snippet` and `status`. -/
def noSnippetResp : ListResponse := ⟨some [some ⟨none, none⟩]⟩

/-- A not-found list response (`items: []`). -/
def emptyItemsResp : ListResponse := ⟨some []⟩

/-- A concrete snippet. -/
def wfSnippet : Snippet := ⟨"T", "D", "22"⟩

/-- A concrete status. -/
def wfStatus : VStatus := ⟨"private"⟩

/-- A well-formed fetched video. -/
def wfVideo : Video := ⟨some wfSnippet, some wfStatus⟩

/-- A list response carrying `wfVideo`. -/
def wfResp : ListResponse := ⟨some [some wfVideo]⟩

/-- Expected metadata whose title differs from `wfSnippet.title`. -/
def otherExpected : ExpectedVideoMetadata := ⟨"S", "D", "22", "private"⟩

/-- Options with every field absent. -/
def emptyOptions : BatchUploadOptions := ⟨none, none, none, none⟩

/-- A concrete batch configuration. -/
def cfg0 : BatchConfig := ⟨"videos", "descriptions", emptyOptions⟩

/-- A concrete successful insert response. -/
def resp0 : InsertResp := ⟨200, "OK", "vid0"⟩

/-- A batch environment for the missing-description scenario: one matching
file, every description read failing, every upload succeeding. -/
def env7 : BatchEnv :=
  ⟨["part3.MTS"], fun _ => none, fun _ => Except.ok resp0⟩

/-- A batch environment with two matching files, all reads and uploads
succeeding. -/
def env6ok : BatchEnv :=
  ⟨["part2.MTS", "part1.MTS"], fun _ => some "desc", fun _ => Except.ok resp0⟩

/-- A batch environment whose upload fails on the job of `part2.MTS`
(recognised by its video path) and succeeds otherwise. -/
def env6fail : BatchEnv :=
  ⟨["part2.MTS", "part1.MTS"], fun _ => some "desc",
   fun job =>
     if job.videoPath = "videos" ++ "/" ++ "part2.MTS" then Except.error "boom"
     else Except.ok resp0⟩


/-! ## Theorems -/

/-! ### Helper lemmas about the fetch loop -/

/-- One-step unfolding of the loop. -/
theorem fetchGo_succ (oracle : Nat → Except String ListResponse)
    (videoId : String) (delayMs k attempt : Nat) :
    fetchGo oracle videoId delayMs (k + 1) attempt =
      (match fetchAttemptBody videoId (oracle attempt) with
       | Except.ok x => some ⟨Except.ok x, [], attempt⟩
       | Except.error e =>
         if k = 0 then
           some ⟨Except.error e, [], attempt⟩
         else
           match fetchGo oracle videoId delayMs k (attempt + 1) with
           | none => none
           | some out =>
               some ⟨out.result, delayMs :: out.sleeps, out.attemptsUsed⟩) := by
  rfl

/-- The fetch loop never falls through when at least one attempt remains. -/
theorem fetchGo_isSome (oracle : Nat → Except String ListResponse)
    (videoId : String) (delayMs : Nat) :
    ∀ (k attempt : Nat), (fetchGo oracle videoId delayMs (k + 1) attempt).isSome := by
  intro k
  induction k with
  | zero =>
    intro attempt
    rw [fetchGo_succ]
    cases fetchAttemptBody videoId (oracle attempt) <;> simp
  | succ n ih =>
    intro attempt
    rw [fetchGo_succ]
    cases fetchAttemptBody videoId (oracle attempt) with
    | ok x => simp
    | error e =>
      simp only [Nat.succ_ne_zero, if_false]
      have h := ih (attempt + 1)
      cases hrec : fetchGo oracle videoId delayMs (n + 1) (attempt + 1) with
      | none => rw [hrec] at h; simp at h
      | some out => simp

/-- With a constant oracle whose attempt body always yields the same error,
the loop consumes all `k` remaining attempts, sleeping `delayMs` between
consecutive ones, and propagates that error. -/
theorem fetchGo_const_error (c : Except String ListResponse) (videoId : String)
    (delayMs : Nat) (E : String)
    (hE : fetchAttemptBody videoId c = Except.error E) :
    ∀ (k attempt : Nat),
      fetchGo (fun _ => c) videoId delayMs (k + 1) attempt =
        some ⟨Except.error E, List.replicate k delayMs, attempt + k⟩ := by
  intro k
  induction k with
  | zero =>
    intro attempt
    rw [fetchGo_succ]
    simp [hE]
  | succ n ih =>
    intro attempt
    rw [fetchGo_succ, hE]
    simp only [Nat.succ_ne_zero, if_false]
    rw [ih (attempt + 1)]
    simp only [List.replicate_succ, Option.some.injEq, FetchOut.mk.injEq]
    exact ⟨trivial, trivial, by omega⟩

/-- With a constant always-failing oracle, `fetchVideoData` uses exactly
`maxAttempts` attempts, sleeps `maxAttempts - 1` times `delayMs`, and ends
with the error of the attempt body. -/
theorem fetchVideoData_const_error (c : Except String ListResponse)
    (videoId : String) (maxAttempts delayMs : Nat) (E : String)
    (hma : 1 ≤ maxAttempts)
    (hE : fetchAttemptBody videoId c = Except.error E) :
    fetchVideoData (fun _ => c) videoId maxAttempts delayMs =
      ⟨Except.error E, List.replicate (maxAttempts - 1) delayMs, maxAttempts⟩ := by
  obtain ⟨k, rfl⟩ : ∃ k, maxAttempts = k + 1 :=
    ⟨maxAttempts - 1, by omega⟩
  unfold fetchVideoData
  rw [fetchGo_const_error c videoId delayMs E hE k 1]
  simp only [Nat.add_sub_cancel, FetchOut.mk.injEq]
  exact ⟨trivial, trivial, by omega⟩

/-- If the very first attempt's body succeeds, the loop returns at once:
no sleeps, one attempt used. -/
theorem fetchVideoData_first_ok (oracle : Nat → Except String ListResponse)
    (videoId : String) (maxAttempts delayMs : Nat) (x : FetchOk)
    (hma : 1 ≤ maxAttempts)
    (h1 : fetchAttemptBody videoId (oracle 1) = Except.ok x) :
    fetchVideoData oracle videoId maxAttempts delayMs = ⟨Except.ok x, [], 1⟩ := by
  obtain ⟨k, rfl⟩ : ∃ k, maxAttempts = k + 1 :=
    ⟨maxAttempts - 1, by omega⟩
  unfold fetchVideoData
  rw [fetchGo_succ, h1]

/-! ### Helper lemmas about the upload loop -/

/-- One-step unfolding of the upload loop. -/
theorem uploadGo_succ (oracle : Nat → Except String InsertResp)
    (retryDelay k attempt : Nat) :
    uploadGo oracle retryDelay (k + 1) attempt =
      (match insertOutcome oracle attempt with
       | Except.ok r => some ⟨Except.ok r, [], attempt + 1⟩
       | Except.error e =>
         if k = 0 then
           some ⟨Except.error e, [], attempt + 1⟩
         else
           match uploadGo oracle retryDelay k (attempt + 1) with
           | none => none
           | some out =>
               some ⟨out.result, retryDelay * 2 ^ attempt :: out.sleeps,
                 out.attemptsUsed⟩) := by
  rfl

/-- The upload loop never falls through when at least one attempt remains. -/
theorem uploadGo_isSome (oracle : Nat → Except String InsertResp)
    (retryDelay : Nat) :
    ∀ (k attempt : Nat), (uploadGo oracle retryDelay (k + 1) attempt).isSome := by
  intro k
  induction k with
  | zero =>
    intro attempt
    rw [uploadGo_succ]
    cases insertOutcome oracle attempt <;> simp
  | succ n ih =>
    intro attempt
    rw [uploadGo_succ]
    cases insertOutcome oracle attempt with
    | ok r => simp
    | error e =>
      simp only [Nat.succ_ne_zero, if_false]
      have h := ih (attempt + 1)
      cases hrec : uploadGo oracle retryDelay (n + 1) (attempt + 1) with
      | none => rw [hrec] at h; simp at h
      | some out => simp

/-- If every remaining attempt fails, the loop consumes them all, sleeping
`retryDelay * 2 ^ a` after each failed non-final attempt `a`, and propagates
the final attempt's error. -/
theorem uploadGo_all_fail (oracle : Nat → Except String InsertResp)
    (retryDelay : Nat) :
    ∀ (k attempt : Nat),
      (∀ j, j ≤ k → ∃ e, insertOutcome oracle (attempt + j) = Except.error e) →
      ∃ E, insertOutcome oracle (attempt + k) = Except.error E ∧
        uploadGo oracle retryDelay (k + 1) attempt =
          some ⟨Except.error E,
            (List.range k).map (fun j => retryDelay * 2 ^ (attempt + j)),
            attempt + k + 1⟩ := by
  intro k
  induction k with
  | zero =>
    intro attempt hfail
    obtain ⟨e, he⟩ := hfail 0 (Nat.le_refl 0)
    refine ⟨e, by simpa using he, ?_⟩
    rw [uploadGo_succ]
    simp only [Nat.add_zero] at he
    rw [he]
    simp
  | succ n ih =>
    intro attempt hfail
    obtain ⟨e0, he0⟩ := hfail 0 (Nat.zero_le _)
    simp only [Nat.add_zero] at he0
    obtain ⟨E, hE, hrec⟩ := ih (attempt + 1) (fun j hj => by
      have := hfail (j + 1) (by omega)
      simpa [Nat.add_assoc, Nat.add_comm 1 j] using this)
    refine ⟨E, ?_, ?_⟩
    · have : attempt + 1 + n = attempt + (n + 1) := by omega
      rwa [this] at hE
    · rw [uploadGo_succ, he0]
      simp only [Nat.succ_ne_zero, if_false]
      rw [hrec]
      have hsleep : (List.range (n + 1)).map (fun j => retryDelay * 2 ^ (attempt + j)) =
          retryDelay * 2 ^ attempt ::
            (List.range n).map (fun j => retryDelay * 2 ^ (attempt + 1 + j)) := by
        rw [List.range_succ_eq_map]
        simp only [List.map_cons, Nat.add_zero, List.map_map]
        refine congrArg _ ?_
        apply List.map_congr_left
        intro a _
        have hx : attempt + 1 + a = attempt + Nat.succ a := by omega
        simp [Function.comp_apply, hx]
      rw [hsleep]
      have harith : attempt + 1 + n + 1 = attempt + (n + 1) + 1 := by omega
      rw [harith]

/-! ### Lemmas about `verifyVideo` -/

/-- A fetch error propagates unchanged through `verifyVideo`. -/
theorem verifyVideo_of_fetch_error (oracle : Nat → Except String ListResponse)
    (videoId : String) (expected : ExpectedVideoMetadata)
    (maxAttempts delayMs : Nat) (e : String) (s : List Nat) (a : Nat)
    (h : fetchVideoData oracle videoId maxAttempts delayMs = ⟨Except.error e, s, a⟩) :
    verifyVideo oracle videoId expected maxAttempts delayMs =
      ⟨Except.error e, s, a⟩ := by
  simp only [verifyVideo]
  rw [h]

/-- A fetch success hands the fetched record to the validation block. -/
theorem verifyVideo_of_fetch_ok (oracle : Nat → Except String ListResponse)
    (videoId : String) (expected : ExpectedVideoMetadata)
    (maxAttempts delayMs : Nat) (x : FetchOk) (s : List Nat) (a : Nat)
    (h : fetchVideoData oracle videoId maxAttempts delayMs = ⟨Except.ok x, s, a⟩) :
    verifyVideo oracle videoId expected maxAttempts delayMs =
      ⟨validateVideo expected x.snippet x.status, s, a⟩ := by
  simp only [verifyVideo]
  rw [h]

/-- Validation succeeds exactly when all four fields match. -/
theorem validateVideo_ok_iff (expected : ExpectedVideoMetadata)
    (sn : Snippet) (st : VStatus) :
    validateVideo expected sn st = Except.ok () ↔
      (sn.title = expected.title ∧ sn.description = expected.description ∧
        sn.categoryId = expected.categoryId ∧
        st.privacyStatus = expected.privacyStatus) := by
  unfold validateVideo
  split_ifs with h1 h2 h3 h4 <;> simp_all

/-! ### Claim C1 -/

/-- C1 counterexample: the claim says a structural defect (null item slot, or
missing `snippet`/`status`) on a fetched item fails immediately, without
sleeping `delayMs` or consuming further attempts, for every
`maxAttempts ≥ 1`. At `maxAttempts = 2`, `delayMs = 7`, the code instead
sleeps once and consumes both attempts before the structural error
propagates, in both defect shapes. -/
theorem fetchVideoData_structural_defect_claim_false :
    fetchVideoData (fun _ => Except.ok nullSlotResp) "abc" 2 7 =
      ⟨Except.error "Video abc not found in response", [7], 2⟩ ∧
    fetchVideoData (fun _ => Except.ok noSnippetResp) "abc" 2 7 =
      ⟨Except.error "Video abc missing snippet or status", [7], 2⟩ := by
  exact ⟨by decide, by decide⟩

/-- C1 (amended): a structural defect in a fetched response (null item slot,
or missing `snippet`/`status`) is retried like any other fetch failure: with
a constantly defective response the loop sleeps `delayMs` between attempts,
consumes all `maxAttempts` attempts, and only then propagates the structural
error; it fails immediately only when `maxAttempts = 1`. -/
theorem fetchVideoData_structural_defect_retried (resp : ListResponse)
    (videoId E : String) (maxAttempts delayMs : Nat) (hma : 1 ≤ maxAttempts)
    (hbody : fetchAttemptBody videoId (Except.ok resp) = Except.error E)
    (_hstruct : E = "Video " ++ videoId ++ " not found in response" ∨
      E = "Video " ++ videoId ++ " missing snippet or status") :
    fetchVideoData (fun _ => Except.ok resp) videoId maxAttempts delayMs =
      ⟨Except.error E, List.replicate (maxAttempts - 1) delayMs, maxAttempts⟩ :=
  fetchVideoData_const_error (Except.ok resp) videoId maxAttempts delayMs E hma hbody

/-- Witness for the amended C1 at `maxAttempts = 3`, `delayMs = 5`. -/
theorem fetchVideoData_structural_defect_retried_witness :
    fetchVideoData (fun _ => Except.ok nullSlotResp) "abc" 3 5 =
      ⟨Except.error ("Video " ++ "abc" ++ " not found in response"),
        List.replicate (3 - 1) 5, 3⟩ :=
  fetchVideoData_structural_defect_retried nullSlotResp "abc"
    ("Video " ++ "abc" ++ " not found in response") 3 5 (by decide) (by decide)
    (Or.inl rfl)

/-! ### Claim C2 -/

/-- C2: `verifyVideo` retries only the fetch — a not-found response (null or
empty item list) is retried `maxAttempts` times (defaults: 5 attempts,
3000 ms) with the same fixed `delayMs` between attempts and then propagates;
a mismatch of any of the four fields on a well-formed record fetched at the
first attempt fails with the validation error with no sleeps and exactly one
fetch attempt, for every `maxAttempts ≥ 1`. -/
theorem verifyVideo_retry_split :
    (∀ (resp : ListResponse) (videoId : String) (expected : ExpectedVideoMetadata)
        (maxAttempts delayMs : Nat), 1 ≤ maxAttempts →
        (resp.items = none ∨ resp.items = some []) →
        verifyVideo (fun _ => Except.ok resp) videoId expected maxAttempts delayMs =
          ⟨Except.error ("Video " ++ videoId ++ " not found on channel"),
            List.replicate (maxAttempts - 1) delayMs, maxAttempts⟩) ∧
    verifyDefaultMaxAttempts = 5 ∧ verifyDefaultDelayMs = 3000 ∧
    (∀ (oracle : Nat → Except String ListResponse) (videoId : String)
        (expected : ExpectedVideoMetadata) (maxAttempts delayMs : Nat)
        (v : Video) (tl : List (Option Video)) (sn : Snippet) (st : VStatus),
        1 ≤ maxAttempts →
        oracle 1 = Except.ok ⟨some (some v :: tl)⟩ →
        v.snippet = some sn → v.status = some st →
        (sn.title ≠ expected.title ∨ sn.description ≠ expected.description ∨
          sn.categoryId ≠ expected.categoryId ∨
          st.privacyStatus ≠ expected.privacyStatus) →
        ∃ msg, validateVideo expected sn st = Except.error msg ∧
          verifyVideo oracle videoId expected maxAttempts delayMs =
            ⟨Except.error msg, [], 1⟩) := by
  refine ⟨?_, rfl, rfl, ?_⟩
  · intro resp videoId expected maxAttempts delayMs hma hitems
    have hbody : fetchAttemptBody videoId (Except.ok resp) =
        Except.error ("Video " ++ videoId ++ " not found on channel") := by
      obtain ⟨items⟩ := resp
      rcases hitems with h | h <;> simp_all [fetchAttemptBody]
    exact verifyVideo_of_fetch_error _ _ _ _ _ _ _ _
      (fetchVideoData_const_error _ _ _ _ _ hma hbody)
  · intro oracle videoId expected maxAttempts delayMs v tl sn st hma h1 hsn hst hmis
    have hbody : fetchAttemptBody videoId (oracle 1) =
        Except.ok ⟨v, sn, st⟩ := by
      rw [h1]
      simp [fetchAttemptBody, hsn, hst]
    have hfetch := fetchVideoData_first_ok oracle videoId maxAttempts delayMs
      ⟨v, sn, st⟩ hma hbody
    have hver := verifyVideo_of_fetch_ok oracle videoId expected maxAttempts
      delayMs ⟨v, sn, st⟩ [] 1 hfetch
    cases hval : validateVideo expected sn st with
    | error msg =>
      refine ⟨msg, rfl, ?_⟩
      rw [hver]
      simp only at hval ⊢
      rw [hval]
    | ok u =>
      exfalso
      cases u
      have := (validateVideo_ok_iff expected sn st).mp hval
      tauto

/-- Witness for C2: a constant empty-items response at `maxAttempts = 2`,
`delayMs = 9`, and a title mismatch on a well-formed record at
`maxAttempts = 4`. -/
theorem verifyVideo_retry_split_witness :
    verifyVideo (fun _ => Except.ok emptyItemsResp) "vid" otherExpected 2 9 =
      ⟨Except.error ("Video " ++ "vid" ++ " not found on channel"),
        List.replicate (2 - 1) 9, 2⟩ ∧
    (∃ msg, validateVideo otherExpected wfSnippet wfStatus = Except.error msg ∧
      verifyVideo (fun _ => Except.ok wfResp) "vid" otherExpected 4 9 =
        ⟨Except.error msg, [], 1⟩) := by
  constructor
  · exact verifyVideo_retry_split.1 emptyItemsResp "vid" otherExpected 2 9
      (by decide) (Or.inr rfl)
  · exact verifyVideo_retry_split.2.2.2 (fun _ => Except.ok wfResp) "vid"
      otherExpected 4 9 wfVideo [] wfSnippet wfStatus (by decide) rfl rfl rfl
      (Or.inl (by decide))

/-! ### Claim C10 -/

/-- C10: both trailing throws are unreachable — for every `maxRetries ≥ 0`
the upload loop itself produces the outcome of `uploadVideoWithRetry`
(the `'Failed to upload video'` fallback never runs), and for every
`maxAttempts ≥ 1` the fetch loop itself produces the outcome of
`fetchVideoData` (the `'Failed to fetch video data'` fallback never runs). -/
theorem trailing_throws_unreachable :
    (∀ (oracle : Nat → Except String InsertResp) (maxRetries retryDelay : Nat),
        ∃ out, uploadGo oracle retryDelay (maxRetries + 1) 0 = some out ∧
          uploadVideoWithRetry oracle maxRetries retryDelay = out) ∧
    (∀ (oracle : Nat → Except String ListResponse) (videoId : String)
        (maxAttempts delayMs : Nat), 1 ≤ maxAttempts →
        ∃ out, fetchGo oracle videoId delayMs maxAttempts 1 = some out ∧
          fetchVideoData oracle videoId maxAttempts delayMs = out) := by
  constructor
  · intro oracle maxRetries retryDelay
    obtain ⟨out, hout⟩ :=
      Option.isSome_iff_exists.mp (uploadGo_isSome oracle retryDelay maxRetries 0)
    refine ⟨out, hout, ?_⟩
    unfold uploadVideoWithRetry
    rw [hout]
  · intro oracle videoId maxAttempts delayMs hma
    obtain ⟨k, rfl⟩ : ∃ k, maxAttempts = k + 1 := ⟨maxAttempts - 1, by omega⟩
    obtain ⟨out, hout⟩ :=
      Option.isSome_iff_exists.mp (fetchGo_isSome oracle videoId delayMs k 1)
    refine ⟨out, hout, ?_⟩
    unfold fetchVideoData
    rw [hout]

/-- Witness for C10 at concrete failing oracles, `maxRetries = 0`,
`maxAttempts = 1`. -/
theorem trailing_throws_unreachable_witness :
    (∃ out, uploadGo (fun _ => Except.error "x") 1 (0 + 1) 0 = some out ∧
      uploadVideoWithRetry (fun _ => Except.error "x") 0 1 = out) ∧
    (∃ out, fetchGo (fun _ => Except.error "y") "vid" 2 1 1 = some out ∧
      fetchVideoData (fun _ => Except.error "y") "vid" 1 2 = out) :=
  ⟨trailing_throws_unreachable.1 (fun _ => Except.error "x") 0 1,
   trailing_throws_unreachable.2 (fun _ => Except.error "y") "vid" 1 2 (by decide)⟩

/-! ### Claim C3 -/

/-- C3: when every attempt of the insert call fails (thrown error or HTTP
status ≥ 400), a single-video upload with `maxRetries = m` makes exactly
`m + 1` attempts, sleeps `retryDelay * 2 ^ (k - 1)` before the `k`-th retry
(`k = 1..m`, i.e. the sleep trace is `[d·2⁰, …, d·2^(m-1)]`), and re-throws
the error of the final attempt; the option defaults are `maxRetries = 3` and
`retryDelay = 1000`. -/
theorem uploadVideoWithRetry_exhaustion :
    (∀ (oracle : Nat → Except String InsertResp) (m d : Nat),
        (∀ k, k ≤ m → ∃ e, insertOutcome oracle k = Except.error e) →
        ∃ E, insertOutcome oracle m = Except.error E ∧
          uploadVideoWithRetry oracle m d =
            ⟨Except.error E, (List.range m).map (fun k => d * 2 ^ k), m + 1⟩) ∧
    (∀ o : BatchUploadOptions, o.maxRetries = none → resolvedMaxRetries o = 3) ∧
    (∀ o : BatchUploadOptions, o.retryDelay = none → resolvedRetryDelay o = 1000) := by
  refine ⟨?_, ?_, ?_⟩
  · intro oracle m d hfail
    obtain ⟨E, hE, hloop⟩ := uploadGo_all_fail oracle d m 0
      (fun j hj => by simpa using hfail j hj)
    simp only [Nat.zero_add] at hE hloop
    refine ⟨E, hE, ?_⟩
    unfold uploadVideoWithRetry
    rw [hloop]
  · intro o h
    simp [resolvedMaxRetries, h]
  · intro o h
    simp [resolvedRetryDelay, h]

/-- Witness for C3: an insert that always throws, `maxRetries = 2`,
`retryDelay = 10`: three attempts, sleeps `[10, 20]`, the error re-thrown;
and the defaults on an all-absent options record. -/
theorem uploadVideoWithRetry_exhaustion_witness :
    uploadVideoWithRetry (fun _ => Except.error "boom") 2 10 =
      ⟨Except.error "boom", (List.range 2).map (fun k => 10 * 2 ^ k), 2 + 1⟩ ∧
    resolvedMaxRetries emptyOptions = 3 ∧
    resolvedRetryDelay emptyOptions = 1000 := by
  obtain ⟨E, hE, h⟩ := uploadVideoWithRetry_exhaustion.1
    (fun _ => Except.error "boom") 2 10 (fun k _ => ⟨"boom", rfl⟩)
  have hEeq : E = "boom" := by
    have : Except.error (ε := String) (α := InsertResp) "boom" = Except.error E := hE
    exact (Except.error.injEq _ _ ▸ this.symm : E = "boom")
  constructor
  · rw [hEeq] at h
    exact h
  · exact ⟨uploadVideoWithRetry_exhaustion.2.1 emptyOptions rfl,
      uploadVideoWithRetry_exhaustion.2.2 emptyOptions rfl⟩

/-! ### Claim C4 -/

/-- C4: `findVideoFiles` orders its output by ascending extracted part
number (numeric, not lexicographic — `part10` sorts after `part2`), and an
empty or match-free listing yields the empty list. -/
theorem findVideoFiles_numeric_sort :
    (∀ files : List String, List.Sorted partLe (findVideoFiles files)) ∧
    findVideoFiles ["part1.MTS", "part10.MTS", "part2.MTS"] =
      ["part1.MTS", "part2.MTS", "part10.MTS"] ∧
    findVideoFiles [] = [] ∧
    (∀ files : List String, (∀ f ∈ files, matchesVideoFilter f = false) →
      findVideoFiles files = []) := by
  refine ⟨?_, by decide, rfl, ?_⟩
  · intro files
    exact List.sorted_insertionSort partLe _
  · intro files h
    have hnil : files.filter matchesVideoFilter = [] := by
      rw [List.filter_eq_nil_iff]
      intro a ha
      simp [h a ha]
    unfold findVideoFiles
    rw [hnil]
    rfl

/-- Witness for C4 at a concrete listing with and without matches. -/
theorem findVideoFiles_numeric_sort_witness :
    List.Sorted partLe (findVideoFiles ["part2.MTS", "part1.MTS"]) ∧
    findVideoFiles ["other.txt", "intro.MTS"] = [] :=
  ⟨findVideoFiles_numeric_sort.1 ["part2.MTS", "part1.MTS"],
   findVideoFiles_numeric_sort.2.2.2 ["other.txt", "intro.MTS"] (by decide)⟩

/-! ### Claim C5 -/

/-- C5 counterexample: the claim says every returned name matches the regex
`part\d+\.MTS`. The filter actually tests only the prefix `part` and the
suffix `.MTS`: the listing `["partx.MTS"]` returns `partx.MTS`, which does
not match the regex (no digits after `part`). -/
theorem findVideoFiles_regex_claim_false :
    findVideoFiles ["partx.MTS"] = ["partx.MTS"] ∧
    specPartPattern "partx.MTS" = false := by
  exact ⟨by decide, by decide⟩

/-- C5 (amended): `findVideoFiles` returns exactly the entries that start
with `part` and end with `.MTS`. Every name matching the spec's regex
`part\d+\.MTS` passes that filter (so all `part<N>.MTS` files are returned),
and names such as `other.MTS` / `intro.MTS` are never returned — but names
like `partx.MTS` (prefix `part`, no digits) are returned as well, so the
filter is a strict superset of the regex. -/
theorem findVideoFiles_filter_membership :
    (∀ (files : List String) (f : String),
        f ∈ findVideoFiles files ↔ f ∈ files ∧ matchesVideoFilter f = true) ∧
    (∀ f : String, specPartPattern f = true → matchesVideoFilter f = true) ∧
    matchesVideoFilter "other.MTS" = false ∧
    matchesVideoFilter "intro.MTS" = false ∧
    (∀ files : List String,
        "other.MTS" ∉ findVideoFiles files ∧ "intro.MTS" ∉ findVideoFiles files) := by
  have hmem : ∀ (files : List String) (f : String),
      f ∈ findVideoFiles files ↔ f ∈ files ∧ matchesVideoFilter f = true := by
    intro files f
    unfold findVideoFiles
    rw [List.mem_insertionSort, List.mem_filter]
  refine ⟨hmem, ?_, by decide, by decide, ?_⟩
  · intro f hf
    unfold specPartPattern at hf
    obtain ⟨hpre, hrest⟩ := Bool.and_eq_true_iff.mp hf
    unfold matchesVideoFilter
    rw [Bool.and_eq_true_iff]
    refine ⟨hpre, ?_⟩
    rw [List.isPrefixOf_iff_prefix] at hpre
    obtain ⟨tail, htail⟩ := hpre
    rw [List.isSuffixOf_iff_suffix]
    have hdrop : f.toList.drop 4 = tail := by
      rw [← htail]
      have h4 : ("part".toList).length = 4 := rfl
      rw [← h4, List.drop_left]
    rw [hdrop] at hrest
    obtain ⟨-, hsuf⟩ := Bool.and_eq_true_iff.mp hrest
    have hsufEq : tail.dropWhile Char.isDigit = ".MTS".toList :=
      of_decide_eq_true hsuf
    have htailSplit : tail.takeWhile Char.isDigit ++ ".MTS".toList = tail := by
      conv_rhs => rw [← List.takeWhile_append_dropWhile Char.isDigit tail]
      rw [hsufEq]
    rw [← htail, ← htailSplit]
    rw [← List.append_assoc]
    exact List.suffix_append _ _
  · intro files
    constructor
    · intro h
      obtain ⟨-, hm⟩ := (hmem files _).mp h
      exact absurd hm (by decide)
    · intro h
      obtain ⟨-, hm⟩ := (hmem files _).mp h
      exact absurd hm (by decide)

/-- Witness for C5 (amended) at a concrete listing. -/
theorem findVideoFiles_filter_membership_witness :
    ("part3.MTS" ∈ findVideoFiles ["other.MTS", "part3.MTS"] ↔
      "part3.MTS" ∈ ["other.MTS", "part3.MTS"] ∧
        matchesVideoFilter "part3.MTS" = true) ∧
    matchesVideoFilter "part3.MTS" = true ∧
    "other.MTS" ∉ findVideoFiles ["other.MTS", "part3.MTS"] :=
  ⟨findVideoFiles_filter_membership.1 ["other.MTS", "part3.MTS"] "part3.MTS",
   findVideoFiles_filter_membership.2.1 "part3.MTS" (by decide),
   (findVideoFiles_filter_membership.2.2.2.2 ["other.MTS", "part3.MTS"]).1⟩

/-! ### Lemmas about `uploadBatch` -/

/-- The early return for an empty listing agrees with running the loop. -/
theorem uploadBatch_eq_batchGo (cfg : BatchConfig) (env : BatchEnv) :
    uploadBatch cfg env = batchGo cfg env (findVideoFiles env.files) := by
  simp only [uploadBatch]
  by_cases h : (findVideoFiles env.files).isEmpty
  · rw [if_pos h, List.isEmpty_iff.mp h]
    rfl
  · rw [if_neg h]

/-- When every upload succeeds, the loop collects one response per file in
order, attempts every job in order, and warns exactly on the files whose
description read failed. -/
theorem batchGo_all_ok (cfg : BatchConfig) (env : BatchEnv)
    (resp : String → InsertResp) :
    ∀ vids : List String,
      (∀ f ∈ vids, env.upload (mkJob cfg env f) = Except.ok (resp f)) →
      batchGo cfg env vids =
        ⟨Except.ok (vids.map resp), vids.map (mkJob cfg env),
          vids.filter (fun f => descMissing cfg env f)⟩ := by
  intro vids
  induction vids with
  | nil => intro _; rfl
  | cons f fs ih =>
    intro h
    have hf := h f (List.mem_cons_self f fs)
    have hrest := ih (fun g hg => h g (List.mem_cons_of_mem f hg))
    simp only [batchGo]
    rw [hf, hrest]
    simp only [List.map_cons, List.filter_cons]
    split_ifs with hd <;> simp

/-- When the first failing upload is that of `f0`, the loop stops there:
the error propagates and only the files up to and including `f0` were
attempted. -/
theorem batchGo_fail (cfg : BatchConfig) (env : BatchEnv)
    (resp : String → InsertResp) (f0 : String) (post : List String) (e : String)
    (hf0 : env.upload (mkJob cfg env f0) = Except.error e) :
    ∀ pre : List String,
      (∀ f ∈ pre, env.upload (mkJob cfg env f) = Except.ok (resp f)) →
      batchGo cfg env (pre ++ f0 :: post) =
        ⟨Except.error e, (pre ++ [f0]).map (mkJob cfg env),
          (pre ++ [f0]).filter (fun f => descMissing cfg env f)⟩ := by
  intro pre
  induction pre with
  | nil =>
    intro _
    simp only [List.nil_append, batchGo]
    rw [hf0]
    simp only [List.map_cons, List.map_nil, List.filter_cons, List.filter_nil]
  | cons g gs ih =>
    intro h
    have hg := h g (List.mem_cons_self g gs)
    simp only [List.cons_append, batchGo, List.append_eq]
    rw [hg, ih (fun x hx => h x (List.mem_cons_of_mem g hx))]
    simp only [List.cons_append, List.map_cons, List.filter_cons]
    split_ifs with hd <;> simp

/-! ### Claim C6 -/

/-- C6: `uploadBatch` is strictly sequential with no partial-batch recovery —
when every upload succeeds, the result is one response per video file in
sorted processing order and every job was attempted in that order; when the
upload of some file `f0` fails permanently (all earlier ones succeeding),
the error propagates as the batch result and no file after `f0` in sorted
order is ever attempted. -/
theorem uploadBatch_sequential_abort :
    (∀ (cfg : BatchConfig) (env : BatchEnv) (resp : String → InsertResp),
        (∀ f ∈ findVideoFiles env.files,
            env.upload (mkJob cfg env f) = Except.ok (resp f)) →
        (uploadBatch cfg env).result =
            Except.ok ((findVideoFiles env.files).map resp) ∧
          (uploadBatch cfg env).attempted =
            (findVideoFiles env.files).map (mkJob cfg env)) ∧
    (∀ (cfg : BatchConfig) (env : BatchEnv) (resp : String → InsertResp)
        (pre : List String) (f0 : String) (post : List String) (e : String),
        findVideoFiles env.files = pre ++ f0 :: post →
        (∀ f ∈ pre, env.upload (mkJob cfg env f) = Except.ok (resp f)) →
        env.upload (mkJob cfg env f0) = Except.error e →
        (uploadBatch cfg env).result = Except.error e ∧
          (uploadBatch cfg env).attempted =
            (pre ++ [f0]).map (mkJob cfg env)) := by
  constructor
  · intro cfg env resp h
    rw [uploadBatch_eq_batchGo, batchGo_all_ok cfg env resp _ h]
    exact ⟨rfl, rfl⟩
  · intro cfg env resp pre f0 post e hsplit hpre hf0
    rw [uploadBatch_eq_batchGo, hsplit,
      batchGo_fail cfg env resp f0 post e hf0 pre hpre]
    exact ⟨rfl, rfl⟩

/-- Witness for C6: a two-file batch where all uploads succeed, and one where
the upload of `part2.MTS` (sorted last) fails after `part1.MTS` succeeds. -/
theorem uploadBatch_sequential_abort_witness :
    ((uploadBatch cfg0 env6ok).result =
        Except.ok ((findVideoFiles env6ok.files).map (fun _ => resp0)) ∧
      (uploadBatch cfg0 env6ok).attempted =
        (findVideoFiles env6ok.files).map (mkJob cfg0 env6ok)) ∧
    ((uploadBatch cfg0 env6fail).result = Except.error "boom" ∧
      (uploadBatch cfg0 env6fail).attempted =
        (["part1.MTS"] ++ ["part2.MTS"]).map (mkJob cfg0 env6fail)) := by
  constructor
  · exact uploadBatch_sequential_abort.1 cfg0 env6ok (fun _ => resp0)
      (fun f _ => rfl)
  · exact uploadBatch_sequential_abort.2 cfg0 env6fail (fun _ => resp0)
      ["part1.MTS"] "part2.MTS" [] "boom" (by decide) (by decide) (by decide)

/-! ### Lemmas about part numbers of `part<N>.MTS` names -/

/-- Computing `takeWhile` of an all-satisfying block followed by a failing head. -/
theorem takeWhile_all_append (p : Char → Bool) (d : Char) (hd : p d = false) :
    ∀ (ds tl : List Char), (∀ c ∈ ds, p c = true) →
      (ds ++ d :: tl).takeWhile p = ds := by
  intro ds
  induction ds with
  | nil =>
    intro tl _
    simp [List.takeWhile, hd]
  | cons c cs ih =>
    intro tl h
    have hc := h c (List.mem_cons_self c cs)
    simp only [List.cons_append, List.takeWhile_cons, hc, if_true]
    rw [ih tl (fun x hx => h x (List.mem_cons_of_mem c hx))]

/-- The extracted part number of a `part<N>.MTS` name is the numeral value
of its digit block. -/
theorem partNum_part_file (ds : List Char) (hne : ds ≠ [])
    (hdig : ∀ c ∈ ds, c.isDigit = true) :
    partNum ("part" ++ String.mk ds ++ ".MTS") = digitsToNat ds := by
  have hlist : ("part" ++ String.mk ds ++ ".MTS").toList =
      'p' :: 'a' :: 'r' :: 't' :: (ds ++ ('.' :: 'M' :: 'T' :: 'S' :: [])) := rfl
  have hpre : ("part".toList).isPrefixOf
      ('p' :: 'a' :: 'r' :: 't' :: (ds ++ ('.' :: 'M' :: 'T' :: 'S' :: []))) = true := by
    rw [List.isPrefixOf_iff_prefix]
    exact ⟨ds ++ ('.' :: 'M' :: 'T' :: 'S' :: []), rfl⟩
  have hpm : partMatchAt
      ('p' :: 'a' :: 'r' :: 't' :: (ds ++ ('.' :: 'M' :: 'T' :: 'S' :: []))) =
      some (digitsToNat ds) := by
    unfold partMatchAt
    rw [hpre, if_pos rfl]
    have hdropEq : List.drop 4
        ('p' :: 'a' :: 'r' :: 't' :: (ds ++ ('.' :: 'M' :: 'T' :: 'S' :: []))) =
        ds ++ ('.' :: 'M' :: 'T' :: 'S' :: []) := rfl
    simp only [hdropEq]
    rw [takeWhile_all_append Char.isDigit '.' rfl ds _ hdig]
    have hne2 : ds.isEmpty = false := by
      cases ds with
      | nil => exact absurd rfl hne
      | cons c cs => rfl
    rw [hne2]
    rfl
  unfold partNum
  rw [hlist]
  simp only [searchPartNum]
  rw [hpm]
  rfl

/-- A `part<N>.MTS` name passes the prefix/suffix filter. -/
theorem matchesVideoFilter_part_file (ds : List Char) :
    matchesVideoFilter ("part" ++ String.mk ds ++ ".MTS") = true := by
  unfold matchesVideoFilter
  rw [Bool.and_eq_true_iff]
  constructor
  · rw [List.isPrefixOf_iff_prefix]
    exact ⟨ds ++ ('.' :: 'M' :: 'T' :: 'S' :: []), rfl⟩
  · rw [List.isSuffixOf_iff_suffix]
    exact ⟨'p' :: 'a' :: 'r' :: 't' :: ds, rfl⟩

/-! ### Claim C7 -/

/-- C7: for a video file `part<N>.MTS` whose English description file cannot
be read, the built job degrades the description to the empty string, its
title is `Video Part {N}` with `N` the numeral value of the digit block, and
— when the file is in the listing and uploads succeed — the job is still
attempted and the missing-description warning is logged for the file. -/
theorem uploadBatch_missing_description (cfg : BatchConfig) (env : BatchEnv)
    (ds : List Char) (file : String)
    (hne : ds ≠ []) (hdig : ∀ c ∈ ds, c.isDigit = true)
    (hfile : file = "part" ++ String.mk ds ++ ".MTS")
    (hdesc : env.readDesc (descPath cfg file) = none) :
    (mkJob cfg env file).description = "" ∧
    (mkJob cfg env file).title = "Video Part " ++ toString (digitsToNat ds) ∧
    (file ∈ env.files →
      ∀ resp : String → InsertResp,
      (∀ f ∈ findVideoFiles env.files,
          env.upload (mkJob cfg env f) = Except.ok (resp f)) →
      mkJob cfg env file ∈ (uploadBatch cfg env).attempted ∧
        file ∈ (uploadBatch cfg env).warnedFiles) := by
  subst hfile
  refine ⟨?_, ?_, ?_⟩
  · simp [mkJob, hdesc]
  · simp [mkJob, partNum_part_file ds hne hdig]
  · intro hmem resp hok
    have hvid : ("part" ++ String.mk ds ++ ".MTS") ∈ findVideoFiles env.files := by
      unfold findVideoFiles
      rw [List.mem_insertionSort, List.mem_filter]
      exact ⟨hmem, matchesVideoFilter_part_file ds⟩
    rw [uploadBatch_eq_batchGo, batchGo_all_ok cfg env resp _ hok]
    constructor
    · exact List.mem_map_of_mem _ hvid
    · rw [List.mem_filter]
      refine ⟨hvid, ?_⟩
      simp [descMissing, hdesc]

/-- Witness for C7: the listing `["part3.MTS"]` with every description read
failing and every upload succeeding. -/
theorem uploadBatch_missing_description_witness :
    (mkJob cfg0 env7 "part3.MTS").description = "" ∧
    (mkJob cfg0 env7 "part3.MTS").title =
      "Video Part " ++ toString (digitsToNat ['3']) ∧
    (mkJob cfg0 env7 "part3.MTS" ∈ (uploadBatch cfg0 env7).attempted ∧
      "part3.MTS" ∈ (uploadBatch cfg0 env7).warnedFiles) := by
  have h := uploadBatch_missing_description cfg0 env7 ['3'] "part3.MTS"
    (by decide) (by decide) (by decide) rfl
  exact ⟨h.1, h.2.1, h.2.2 (by decide) (fun _ => resp0) (fun f _ => rfl)⟩

/-! ### Lemmas about the splitter -/

/-- Splitting off the first measured part from the running sum. -/
theorem sumActs_succ (actual : Nat → ℚ) (i k : Nat) :
    sumActs actual i (k + 1) = actual i + sumActs actual (i + 1) k := by
  unfold sumActs
  rw [List.range_succ_eq_map]
  simp only [List.map_cons, Nat.add_zero, List.map_map, List.sum_cons]
  refine congrArg _ ?_
  refine congrArg _ ?_
  apply List.map_congr_left
  intro a _
  simp only [Function.comp_apply]
  have hx : i + Nat.succ a = i + 1 + a := by omega
  rw [hx]

/-- The splitter loop emits exactly one command per remaining part. -/
theorem splitGo_length (actual : Nat → ℚ) :
    ∀ (r i : Nat) (s rem : ℚ), (splitGo actual r i s rem).length = r := by
  intro r
  induction r with
  | zero => intro i s rem; rfl
  | succ n ih =>
    intro i s rem
    simp only [splitGo, List.length_cons]
    rw [ih]

/-- The `k`-th command (0-based) of the splitter loop: its `-ss` offset is
the running start plus the measured durations of the parts already produced,
and its `-t` argument is the remaining duration divided by the number of
remaining parts — omitted exactly for the last part. -/
theorem splitGo_get (actual : Nat → ℚ) :
    ∀ (r k i : Nat) (s rem : ℚ), k < r →
      (splitGo actual r i s rem)[k]? =
        some ⟨s + sumActs actual i k,
          if k + 1 = r then none
          else some ((rem - sumActs actual i k) / ((r - k : Nat) : ℚ))⟩ := by
  intro r
  induction r with
  | zero => intro k i s rem hk; omega
  | succ n ih =>
    intro k i s rem hk
    cases k with
    | zero =>
      simp only [splitGo, List.getElem?_cons_zero, Option.some.injEq]
      have h0 : sumActs actual i 0 = 0 := rfl
      rw [h0, add_zero, sub_zero]
      cases n with
      | zero => rfl
      | succ m =>
        simp only [Nat.succ_ne_zero, if_false, Nat.zero_add, Nat.sub_zero,
          SplitCmd.mk.injEq, true_and]
        rw [if_neg (by omega : ¬(1 = m + 1 + 1))]
        simp only [Option.some.injEq]
        push_cast
        ring
    | succ k' =>
      simp only [splitGo, List.getElem?_cons_succ]
      rw [ih k' (i + 1) (s + actual i) (rem - actual i) (by omega)]
      rw [sumActs_succ]
      simp only [Option.some.injEq, SplitCmd.mk.injEq]
      constructor
      · ring
      · by_cases hlast : k' + 1 = n
        · rw [if_pos hlast, if_pos (by omega : k' + 1 + 1 = n + 1)]
        · rw [if_neg hlast, if_neg (by omega : ¬(k' + 1 + 1 = n + 1))]
          simp only [Option.some.injEq]
          have hden : n + 1 - (k' + 1) = n - k' := by omega
          rw [hden]
          ring

/-! ### Claim C8 -/

/-- C8: `splitVideoPrecise` invokes the transcoder once per part; the part at
0-based index `k` (part `i = k + 1` of `N`) gets `-ss` equal to the sum of
the measured durations of the parts already produced and plans
`-t = remaining / (N - i + 1)` where `remaining` is the source duration
minus those measured durations — except the last part, which omits `-t`. -/
theorem splitVideoPrecise_plan :
    ∀ (duration : ℚ) (parts : Nat) (actual : Nat → ℚ),
      (splitVideoPrecise duration parts actual).length = parts ∧
      ∀ k, k < parts →
        (splitVideoPrecise duration parts actual)[k]? =
          some ⟨sumActs actual 1 k,
            if k + 1 = parts then none
            else some ((duration - sumActs actual 1 k) / ((parts - k : Nat) : ℚ))⟩ := by
  intro duration parts actual
  constructor
  · exact splitGo_length actual parts 1 0 duration
  · intro k hk
    have h := splitGo_get actual parts k 1 0 duration hk
    unfold splitVideoPrecise
    rw [h, zero_add]

/-- Witness for C8 at `duration = 10`, `parts = 2`, constant measured
duration `4`: two commands, the first planning `10 / 2` from offset `0`,
the last from offset `4` with `-t` omitted. -/
theorem splitVideoPrecise_plan_witness :
    (splitVideoPrecise 10 2 (fun _ => (4 : ℚ))).length = 2 ∧
    (splitVideoPrecise 10 2 (fun _ => (4 : ℚ)))[0]? =
      some ⟨sumActs (fun _ => (4 : ℚ)) 1 0,
        if 0 + 1 = 2 then none
        else some ((10 - sumActs (fun _ => (4 : ℚ)) 1 0) / ((2 - 0 : Nat) : ℚ))⟩ ∧
    (splitVideoPrecise 10 2 (fun _ => (4 : ℚ)))[1]? =
      some ⟨sumActs (fun _ => (4 : ℚ)) 1 1,
        if 1 + 1 = 2 then none
        else some ((10 - sumActs (fun _ => (4 : ℚ)) 1 1) / ((2 - 1 : Nat) : ℚ))⟩ :=
  ⟨(splitVideoPrecise_plan 10 2 (fun _ => (4 : ℚ))).1,
   (splitVideoPrecise_plan 10 2 (fun _ => (4 : ℚ))).2 0 (by omega),
   (splitVideoPrecise_plan 10 2 (fun _ => (4 : ℚ))).2 1 (by omega)⟩

/-! ### Claim C9 -/

/-- C9: after a successful concatenation (ffmpeg exit code 0), `concatMts`
returns normally whatever the durations are, and when the sum of the input
durations exceeds the output duration by more than the 0.01 s tolerance it
logs the mismatch warning — a duration mismatch never makes `concatMts`
throw. -/
theorem concatMts_warn_not_fail :
    ∀ (files : List String) (dur : String → ℚ) (outDur : ℚ),
      (concatMts files dur outDur 0).result = Except.ok () ∧
      (((concatInputs files).map dur).sum - outDur > 1 / 100 →
        (concatMts files dur outDur 0).durationWarning = true) := by
  intro files dur outDur
  unfold concatMts
  simp only [ne_eq, not_true_eq_false, if_neg, if_false]
  constructor
  · trivial
  · intro h
    simpa using h

/-- Witness for C9: one input of duration 1 against output duration 0:
result is ok and the warning is logged. -/
theorem concatMts_warn_not_fail_witness :
    (concatMts ["a.MTS"] (fun _ => (1 : ℚ)) 0 0).result = Except.ok () ∧
    (concatMts ["a.MTS"] (fun _ => (1 : ℚ)) 0 0).durationWarning = true := by
  have h := concatMts_warn_not_fail ["a.MTS"] (fun _ => (1 : ℚ)) 0
  refine ⟨h.1, h.2 ?_⟩
  norm_num [concatInputs, List.insertionSort, List.orderedInsert]

end YTV
